import Mathlib

/-!
Verification of the hwtest hardware-in-the-loop test harness against its
specification.  The repository ships the test suite (tests/component_test.py,
tests/controller_test.py, tests/loogging_test.py) and examples; the core
package modules (hwtest/component.py, hwtest/controller.py,
hwtest/logging.py) are not present, so the core operations below are
modelled from the specification, with the shipped tests pinning the
behaviour at every point they exercise.
-/

/-- Extended numbers: a plain rational, `-inf` or `+inf`.  Models the Python
floats used for bounds, where `INF = float("inf")` in hwtest/component.py;
finite values are modelled as rationals. -/
inductive XNum where
  | negInf
  | num (q : ℚ)
  | posInf
deriving DecidableEq

/-- The `INF` constant exported by hwtest/component.py. -/
def INF : XNum := XNum.posInf

/-- Order on extended numbers, as Python float comparison behaves on
`-inf`, finite values and `+inf`. -/
def XNum.le : XNum → XNum → Prop
  | .negInf, _ => True
  | _, .posInf => True
  | .posInf, _ => False
  | _, .negInf => False
  | .num a, .num b => a ≤ b

instance : LE XNum := ⟨XNum.le⟩

instance XNum.decLe : (a b : XNum) → Decidable (XNum.le a b) := fun a b => by
  cases a <;> cases b <;> simp only [XNum.le] <;> infer_instance

instance (a b : XNum) : Decidable (a ≤ b) := XNum.decLe a b

/-- Pass/Fail discriminator of a LogEvent: which of the two classes
(`Pass` or `Fail` in hwtest/logging.py) the event is. -/
inductive Verdict where
  | pass
  | fail
deriving DecidableEq

/-- Modelled from the spec: LogEvent, "two variants, Pass/Fail, same shape:
{component_name, subcomponent_name (optional), lower_bound (may be −∞),
value, upper_bound (may be +∞), timestamp}.  Equality is structural over all
fields."  The variant is recorded in the `verdict` field; structural
(derived) equality therefore distinguishes `Pass` from `Fail` with equal
fields, as loogging_test.py's `test_eq` requires. -/
structure LogEvent where
  verdict : Verdict
  component_name : String
  subcomponent_name : Option String := none
  lower_bound : XNum
  value : XNum
  upper_bound : XNum
  timestamp : ℚ
deriving DecidableEq

/-- True exactly on `Fail` events. -/
def LogEvent.isFail (e : LogEvent) : Bool :=
  match e.verdict with
  | .fail => true
  | .pass => false

/-- Number of `Fail` events in a list. -/
def countFails (es : List LogEvent) : Nat :=
  (es.filter LogEvent.isFail).length

/-- The assertion-facing facet of a hwtest Component: its `name` and the
sequence of events emitted through its `logger` so far (the tests attach a
`MockLogger` that records events in a list). -/
structure Component where
  name : String
  logs : List LogEvent := []
deriving DecidableEq

/-- Modelled from the spec: `assert_between(lower, value, upper)` "emits
`Pass` if `lower ≤ value ≤ upper`, else `Fail`, always through the
Component's `logger`, always stamped with the Component's own `name` and the
current time, and carries `lower`, `value`, `upper` verbatim (including
infinities) into the event."  The current time is passed explicitly as
`now`; emission through the logger is modelled by appending to `logs`. -/
def Component.assert_between (c : Component) (now : ℚ)
    (lower value upper : XNum) : Component :=
  { c with
    logs := c.logs ++
      [{ verdict := if lower ≤ value ∧ value ≤ upper then .pass else .fail
         component_name := c.name
         subcomponent_name := none
         lower_bound := lower
         value := value
         upper_bound := upper
         timestamp := now }] }

/-- Modelled from the spec: `assert_lt`'s argument order follows the §8
concrete examples and tests/component_test.py (`assert_lt(0, 1)` emits an
event with `lower_bound = -INF`, `value = 0`, `upper_bound = 1`): it is
`assert_between(−∞, value, upper)`. -/
def Component.assert_lt (c : Component) (now : ℚ) (value upper : XNum) :
    Component :=
  c.assert_between now XNum.negInf value upper

/-- Modelled from the spec: `assert_gt`'s argument order follows the §8
concrete examples and tests/component_test.py (`assert_gt(0, 1)` emits an
event with `lower_bound = 0`, `value = 1`, `upper_bound = INF`): it is
`assert_between(lower, value, +∞)`. -/
def Component.assert_gt (c : Component) (now : ℚ) (lower value : XNum) :
    Component :=
  c.assert_between now lower value XNum.posInf

/-- The fresh component named "test" the component tests construct. -/
def testComp : Component := { name := "test" }

/-- Decimal rendering of a rational, as Python prints the numbers appearing
in log lines: an integral value prints with no fractional part. -/
def renderRat (q : ℚ) : String :=
  if q.den = 1 then toString q.num
  else toString q.num ++ "/" ++ toString q.den

/-- Rendering of an extended number in a console log line; infinite bounds
render as their numeric sentinel, as Python prints `float("inf")`. -/
def XNum.render : XNum → String
  | .negInf => "-inf"
  | .num q => renderRat q
  | .posInf => "inf"

/-- The `PASS`/`FAIL` column of a console log line. -/
def Verdict.render : Verdict → String
  | .pass => "PASS"
  | .fail => "FAIL"

/-- Modelled from the spec: the synchronous console sink (`StdoutLogger` in
hwtest/logging.py) "formats each Fail/Pass as a comma-joined record:
`timestamp,PASS|FAIL,component_name,lower_bound,value,upper_bound
[,subcomponent_name]` (subcomponent suffix present only if set)". -/
def StdoutLogger.line (e : LogEvent) : String :=
  String.intercalate ","
    ([renderRat e.timestamp, e.verdict.render, e.component_name,
      e.lower_bound.render, e.value.render, e.upper_bound.render] ++
     (match e.subcomponent_name with
      | none => []
      | some s => [s]))

/-- Modelled from the spec: the console sink "writes it immediately" — one
line printed per logged event; the lines printed so far stand for stdout. -/
def StdoutLogger.log (printed : List String) (e : LogEvent) : List String :=
  printed ++ [StdoutLogger.line e]

/-- Modelled from the spec: the asynchronous decoupling sink (`ThreadLogger`
in hwtest/logging.py) "wraps a delegate Logger.  `log(event)` enqueues the
event onto an unbounded FIFO and returns immediately; a single background
worker dequeues events in submission order and forwards each to the
delegate's `log()`."  `queue` is the pending FIFO; `delegate_logs` is the
sequence of events the delegate's `log()` has received. -/
structure ThreadLogger where
  queue : List LogEvent := []
  delegate_logs : List LogEvent := []
deriving DecidableEq

/-- The producer side: `log(event)` enqueues and returns. -/
def ThreadLogger.log (t : ThreadLogger) (e : LogEvent) : ThreadLogger :=
  { t with queue := t.queue ++ [e] }

/-- One wakeup of the background worker: dequeue the oldest pending event,
if any, and forward it to the delegate. -/
def ThreadLogger.workerStep (t : ThreadLogger) : ThreadLogger :=
  match t.queue with
  | [] => t
  | e :: rest => { queue := rest, delegate_logs := t.delegate_logs ++ [e] }

/-- Modelled from the spec: "`close()` is a drain barrier: it blocks until
every event enqueued before the call to `close()` has been forwarded to the
delegate, then releases the worker."  Its result is the state once the
barrier is passed: the backlog fully forwarded, in FIFO order. -/
def ThreadLogger.close (t : ThreadLogger) : ThreadLogger :=
  { queue := [], delegate_logs := t.delegate_logs ++ t.queue }

/-- An observable step of a ThreadLogger history: the single producer
submits an event, or the background worker wakes and forwards one. -/
inductive TLOp where
  | submit (e : LogEvent)
  | wake
deriving DecidableEq

/-- Run one history step. -/
def tlStep (t : ThreadLogger) : TLOp → ThreadLogger
  | TLOp.submit e => t.log e
  | TLOp.wake => t.workerStep

/-- The events the producer submitted over a history, in submission
order. -/
def submitted : List TLOp → List LogEvent
  | [] => []
  | TLOp.submit e :: rest => e :: submitted rest
  | TLOp.wake :: rest => submitted rest

/-- The Controller-facing facet of a hwtest Component: `oid` models Python
object identity, `name` the Component's unique name, and `checkLogs` the
events its `check()` emits through its logger on each call (the concrete
`check()` body is subclass code outside the core). -/
structure RegComponent where
  oid : Nat
  name : String
  checkLogs : List LogEvent := []
deriving DecidableEq

/-- The kind of a scheduling action: wait only (`Wait`), or wait then check
all registered components (`CheckAndWait`, exported by
hwtest/controller.py). -/
inductive ActionClass where
  | Wait
  | CheckAndWait
deriving DecidableEq

/-- Modelled from the spec: a scheduling action is "either a bare
non-negative duration (wait, then do nothing else) or a compound action
wait, then check all registered components". -/
structure SchedAction where
  cls : ActionClass
  duration : ℚ
deriving DecidableEq

/-- What one suspension point of the test procedure yields: nothing (a bare
`yield`), a bare duration (`yield 1`), or an explicit action
(`yield CheckAndWait(1)`), as the controller tests and examples do. -/
inductive Yielded where
  | bare
  | dur (d : ℚ)
  | act (a : SchedAction)
deriving DecidableEq

/-- One resumption of the test procedure: it yields a value, or raises. -/
inductive ProcStep where
  | yields (y : Yielded)
  | raises
deriving DecidableEq

/-- The error raised when a different Component with an already-registered
name is registered (`DuplicateComponentName` in hwtest/controller.py). -/
inductive RegError where
  | DuplicateComponentName
deriving DecidableEq

/-- Modelled from the spec: the Controller owns "the registry of Components
(insertion order preserved), default scheduling action, fail tally"; the
default action class/args fields are the mutable attributes the controller
tests assign (`default_action_class`, `default_action_args`), and their
built-in defaults — check all components, wait 0 — are pinned by
`test_check_called` (bare yield checks with nothing configured) and
`test_check_and_wait_zero` (no sleep when args are unset).  `setupLogs` and
`teardownLogs` are the events the overridable `setup()`/`teardown()` hooks
log. -/
structure Controller where
  components : List RegComponent := []
  default_action_class : ActionClass := ActionClass.CheckAndWait
  default_action_args : ℚ := 0
  setupLogs : List LogEvent := []
  teardownLogs : List LogEvent := []
deriving DecidableEq

/-- Modelled from the spec: `register_component(c)` is an "idempotent no-op
if `c` is already registered by identity; fails with
`DuplicateComponentName` if a different Component with the same name is
already registered".  The possibly-updated registry is returned together
with the raised error, if any. -/
def Controller.register_component (c : Controller) (comp : RegComponent) :
    Controller × Option RegError :=
  if c.components.any fun x => x.oid == comp.oid then (c, none)
  else if c.components.any fun x => x.name == comp.name then
    (c, some RegError.DuplicateComponentName)
  else ({ c with components := c.components ++ [comp] }, none)

/-- Observable calls a run makes, in order: the `setup()` hook, a call to
the wait primitive (`time.sleep(d)`), a `check()` on the component with the
given identity, the `teardown()` hook. -/
inductive TraceEv where
  | setupEv
  | sleepEv (d : ℚ)
  | checkEv (oid : Nat)
  | teardownEv
deriving DecidableEq

/-- True on wait-primitive calls. -/
def TraceEv.isSleep : TraceEv → Bool
  | .sleepEv _ => true
  | _ => false

/-- True on `check()` calls. -/
def TraceEv.isCheck : TraceEv → Bool
  | .checkEv _ => true
  | _ => false

/-- The observable state a run accumulates: the call trace, every LogEvent
logged so far, and the Controller's fail tally. -/
structure RunState where
  trace : List TraceEv := []
  events : List LogEvent := []
  failTally : Nat := 0
deriving DecidableEq

/-- Modelled from the spec: each logged event reaches the run's
bookkeeping, and the fail tally is "an internal counter incremented by a
logging hook" on each `Fail`. -/
def doLog (st : RunState) (e : LogEvent) : RunState :=
  { st with
    events := st.events ++ [e]
    failTally := st.failTally + (if e.isFail then 1 else 0) }

/-- Modelled from the spec: step semantics part (1), "resolve the wait
duration — explicit value if given, else the Controller's configured
default"; a bare yield takes the default action class and args, a bare
duration takes the default class with that duration, an explicit action is
taken as is. -/
def Controller.resolveAction (c : Controller) : Yielded → SchedAction
  | Yielded.bare =>
    { cls := c.default_action_class, duration := c.default_action_args }
  | Yielded.dur d => { cls := c.default_action_class, duration := d }
  | Yielded.act a => a

/-- Modelled from the spec: step semantics part (2), block for the resolved
duration, except that a zero duration skips the wait primitive entirely
(`mock_sleep.assert_not_called()` in `test_check_and_wait_zero`). -/
def applyWait (a : SchedAction) (st : RunState) : RunState :=
  if a.duration = 0 then st
  else { st with trace := st.trace ++ [TraceEv.sleepEv a.duration] }

/-- One `check()` call: the Component is checked and the events its check
emits are logged. -/
def checkComponent (st : RunState) (comp : RegComponent) : RunState :=
  comp.checkLogs.foldl doLog
    { st with trace := st.trace ++ [TraceEv.checkEv comp.oid] }

/-- Modelled from the spec: step semantics — resolve the action, block for
the resolved duration, then, if the action requests a check, "invoke
`check()` on every registered Component in registration order". -/
def Controller.execStep (c : Controller) (st : RunState) (y : Yielded) :
    RunState :=
  match (c.resolveAction y).cls with
  | ActionClass.Wait => applyWait (c.resolveAction y) st
  | ActionClass.CheckAndWait =>
    c.components.foldl checkComponent (applyWait (c.resolveAction y) st)

/-- The trace a wait contributes: nothing for a zero duration, one call to
the wait primitive otherwise. -/
def waitDelta (a : SchedAction) : List TraceEv :=
  if a.duration = 0 then [] else [TraceEv.sleepEv a.duration]

/-- The trace of checking a component list in order. -/
def checkDelta : List RegComponent → List TraceEv
  | [] => []
  | comp :: rest => TraceEv.checkEv comp.oid :: checkDelta rest

/-- The events logged by checking a component list in order. -/
def checkEvents : List RegComponent → List LogEvent
  | [] => []
  | comp :: rest => comp.checkLogs ++ checkEvents rest

/-- The trace one procedure step contributes. -/
def Controller.stepDelta (c : Controller) (y : Yielded) : List TraceEv :=
  waitDelta (c.resolveAction y) ++
    (match (c.resolveAction y).cls with
     | ActionClass.Wait => []
     | ActionClass.CheckAndWait => checkDelta c.components)

/-- The events one procedure step logs. -/
def Controller.stepEvents (c : Controller) (y : Yielded) : List LogEvent :=
  match (c.resolveAction y).cls with
  | ActionClass.Wait => []
  | ActionClass.CheckAndWait => checkEvents c.components

/-- Modelled from the spec: the Controller "drives the test procedure to
completion one suspension point at a time"; an exception from the procedure
aborts the stepping (reported as the `true` flag) but is not swallowed. -/
def Controller.runProc (c : Controller) (st : RunState) :
    List ProcStep → RunState × Bool
  | [] => (st, false)
  | ProcStep.raises :: _ => (st, true)
  | ProcStep.yields y :: rest => c.runProc (c.execStep st y) rest

/-- Modelled from the spec: `run()` "invokes `setup()`, then drives the
test procedure to completion one suspension point at a time, then invokes
`teardown()` unconditionally (even if the procedure raises), then returns
the number of Fail events observed"; a `none` result is the exception
propagating out of `run()` after `teardown()` ran. -/
def Controller.run (c : Controller) (proc : List ProcStep) :
    RunState × Option Nat :=
  let st0 := c.setupLogs.foldl doLog { trace := [TraceEv.setupEv] }
  let res := c.runProc st0 proc
  let st2 := c.teardownLogs.foldl doLog
    { res.1 with trace := res.1.trace ++ [TraceEv.teardownEv] }
  (st2, if res.2 then none else some st2.failTally)

/-- The trace contributed by the procedure steps of a run (cut short at the
first raising step). -/
def Controller.procTrace (c : Controller) : List ProcStep → List TraceEv
  | [] => []
  | ProcStep.raises :: _ => []
  | ProcStep.yields y :: rest => c.stepDelta y ++ c.procTrace rest

/-- The events logged by the procedure steps of a run (cut short at the
first raising step). -/
def Controller.procEvents (c : Controller) : List ProcStep → List LogEvent
  | [] => []
  | ProcStep.raises :: _ => []
  | ProcStep.yields y :: rest => c.stepEvents y ++ c.procEvents rest

/-- Whether the procedure raises before completing. -/
def raisesIn : List ProcStep → Bool
  | [] => false
  | ProcStep.raises :: _ => true
  | ProcStep.yields _ :: rest => raisesIn rest

/-- A sample Fail event, as the tests build with `Fail("test", 0, 3, 2)`. -/
def sampleFail : LogEvent :=
  { verdict := Verdict.fail
    component_name := "test"
    lower_bound := XNum.num 0
    value := XNum.num 3
    upper_bound := XNum.num 2
    timestamp := 0 }

/-- A controller whose `setup()` hook logs one Fail event. -/
def failingSetupController : Controller := { setupLogs := [sampleFail] }

/-- FIFO invariant of the async logger: across any history, forwarded
events followed by the pending queue equal the prior state's contents plus
the submissions, in order — nothing dropped, reordered or duplicated. -/
theorem tlStep_foldl_invariant (ops : List TLOp) :
    ∀ t : ThreadLogger,
      (ops.foldl tlStep t).delegate_logs ++ (ops.foldl tlStep t).queue =
        t.delegate_logs ++ t.queue ++ submitted ops := by
  induction ops with
  | nil => intro t; simp [submitted]
  | cons op rest ih =>
    intro t
    cases op with
    | submit e =>
      simp only [List.foldl_cons, tlStep, ThreadLogger.log, submitted]
      rw [ih]
      simp
    | wake =>
      simp only [List.foldl_cons, tlStep, ThreadLogger.workerStep, submitted]
      cases h : t.queue with
      | nil => rw [ih]; simp [h]
      | cons e rest2 => rw [ih]; simp [h]

/-- No event is a Fail in the empty log. -/
theorem countFails_nil : countFails [] = 0 := rfl

/-- Fail count of a cons. -/
theorem countFails_cons (e : LogEvent) (es : List LogEvent) :
    countFails (e :: es) = (if e.isFail then 1 else 0) + countFails es := by
  cases h : e.isFail <;> simp [countFails, List.filter_cons, h, Nat.add_comm]

/-- Fail count distributes over append. -/
theorem countFails_append (a b : List LogEvent) :
    countFails (a ++ b) = countFails a + countFails b := by
  simp [countFails, List.filter_append]

/-- Folding the logging hook over a list of events appends them all and
bumps the tally by the number of Fails among them. -/
theorem foldl_doLog_spec (es : List LogEvent) :
    ∀ st : RunState,
      es.foldl doLog st =
        { trace := st.trace
          events := st.events ++ es
          failTally := st.failTally + countFails es } := by
  induction es with
  | nil => intro st; simp [countFails_nil]
  | cons e rest ih =>
    intro st
    rw [List.foldl_cons, ih]
    simp [doLog, countFails_cons]
    omega

/-- Waiting contributes exactly its trace delta. -/
theorem applyWait_spec (a : SchedAction) (st : RunState) :
    applyWait a st = { st with trace := st.trace ++ waitDelta a } := by
  by_cases h : a.duration = 0 <;> simp [applyWait, waitDelta, h]

/-- One `check()` call appends one check trace entry and the component's
emitted events, bumping the tally by its Fails. -/
theorem checkComponent_spec (st : RunState) (comp : RegComponent) :
    checkComponent st comp =
      { trace := st.trace ++ [TraceEv.checkEv comp.oid]
        events := st.events ++ comp.checkLogs
        failTally := st.failTally + countFails comp.checkLogs } := by
  simp [checkComponent, foldl_doLog_spec]

/-- Checking a component list contributes its full check trace and events,
in registration order. -/
theorem foldl_checkComponent_spec (comps : List RegComponent) :
    ∀ st : RunState,
      comps.foldl checkComponent st =
        { trace := st.trace ++ checkDelta comps
          events := st.events ++ checkEvents comps
          failTally := st.failTally + countFails (checkEvents comps) } := by
  induction comps with
  | nil => intro st; simp [checkDelta, checkEvents, countFails_nil]
  | cons comp rest ih =>
    intro st
    rw [List.foldl_cons, checkComponent_spec, ih]
    simp [checkDelta, checkEvents, countFails_append]
    omega

/-- One procedure step transforms the run state by exactly its trace delta
and logged events. -/
theorem execStep_spec (c : Controller) (st : RunState) (y : Yielded) :
    c.execStep st y =
      { trace := st.trace ++ c.stepDelta y
        events := st.events ++ c.stepEvents y
        failTally := st.failTally + countFails (c.stepEvents y) } := by
  cases h : (c.resolveAction y).cls <;>
    simp [Controller.execStep, Controller.stepDelta, Controller.stepEvents,
      h, applyWait_spec, foldl_checkComponent_spec, countFails_nil]

/-- Driving the procedure transforms the run state by the procedure's trace
and events, and reports whether it raised. -/
theorem runProc_spec (c : Controller) (proc : List ProcStep) :
    ∀ st : RunState,
      c.runProc st proc =
        ({ trace := st.trace ++ c.procTrace proc
           events := st.events ++ c.procEvents proc
           failTally := st.failTally + countFails (c.procEvents proc) },
         raisesIn proc) := by
  induction proc with
  | nil =>
    intro st
    simp [Controller.runProc, Controller.procTrace, Controller.procEvents,
      raisesIn, countFails_nil]
  | cons step rest ih =>
    intro st
    cases step with
    | raises =>
      simp [Controller.runProc, Controller.procTrace, Controller.procEvents,
        raisesIn, countFails_nil]
    | yields y =>
      simp only [Controller.runProc, Controller.procTrace,
        Controller.procEvents, raisesIn, execStep_spec, ih]
      simp [countFails_append]
      omega

/-- Full characterization of a run: the trace is setup, the procedure's
trace, teardown; the events are setup's, the procedure's, teardown's; the
tally counts the Fails among them; the result is that tally, or the
procedure's exception. -/
theorem run_spec (c : Controller) (proc : List ProcStep) :
    c.run proc =
      ({ trace :=
           TraceEv.setupEv :: (c.procTrace proc ++ [TraceEv.teardownEv])
         events := c.setupLogs ++ c.procEvents proc ++ c.teardownLogs
         failTally :=
           countFails (c.setupLogs ++ c.procEvents proc ++ c.teardownLogs) },
       if raisesIn proc then none
       else
         some
           (countFails
             (c.setupLogs ++ c.procEvents proc ++ c.teardownLogs))) := by
  simp [Controller.run, foldl_doLog_spec, runProc_spec, countFails_append,
    Nat.add_assoc]

/-- A step's trace delta holds only wait and check calls. -/
theorem stepDelta_no_lifecycle (c : Controller) (y : Yielded) :
    TraceEv.setupEv ∉ c.stepDelta y ∧ TraceEv.teardownEv ∉ c.stepDelta y := by
  have hc : ∀ comps : List RegComponent,
      TraceEv.setupEv ∉ checkDelta comps ∧
        TraceEv.teardownEv ∉ checkDelta comps := by
    intro comps
    induction comps with
    | nil => simp [checkDelta]
    | cons comp rest ih => simp [checkDelta, ih]
  cases h : (c.resolveAction y).cls <;>
    by_cases hd : (c.resolveAction y).duration = 0 <;>
      simp [Controller.stepDelta, waitDelta, h, hd, hc c.components]

/-- The procedure's trace holds only wait and check calls. -/
theorem procTrace_no_lifecycle (c : Controller) (proc : List ProcStep) :
    TraceEv.setupEv ∉ c.procTrace proc ∧
      TraceEv.teardownEv ∉ c.procTrace proc := by
  induction proc with
  | nil => simp [Controller.procTrace]
  | cons step rest ih =>
    cases step with
    | raises => simp [Controller.procTrace]
    | yields y =>
      have hs := stepDelta_no_lifecycle c y
      simp [Controller.procTrace, ih, hs.1, hs.2]

/-- Check calls filter out of a check trace unchanged; wait calls filter to
nothing. -/
theorem checkDelta_filters (comps : List RegComponent) :
    (checkDelta comps).filter TraceEv.isSleep = [] ∧
      (checkDelta comps).filter TraceEv.isCheck = checkDelta comps := by
  induction comps with
  | nil => simp [checkDelta]
  | cons comp rest ih =>
    simp [checkDelta, List.filter_cons, TraceEv.isSleep, TraceEv.isCheck,
      ih.1, ih.2]

/-- C1: for every `(lower, value, upper)`, `assert_between` emits exactly
one LogEvent through the Component's logger — a `Pass` when
`lower ≤ value ≤ upper`, otherwise a `Fail` — carrying the three bounds
verbatim (infinite bounds included), the Component's own name, and the
current time as its timestamp; the Component's name is untouched and, the
model being total, no exception is raised. -/
theorem assert_between_emits_one_event (c : Component) (now : ℚ)
    (lower value upper : XNum) :
    (c.assert_between now lower value upper).logs =
      c.logs ++
        [{ verdict :=
             if lower ≤ value ∧ value ≤ upper then Verdict.pass
             else Verdict.fail
           component_name := c.name
           subcomponent_name := none
           lower_bound := lower
           value := value
           upper_bound := upper
           timestamp := now }] ∧
    (c.assert_between now lower value upper).name = c.name := by
  constructor <;> rfl

/-- C2 counterexample: as §4.2 words it, `assert_lt(a, b)` would emit the
event of `assert_between(a, b, +∞)` and `assert_gt(a, b)` the event of
`assert_between(−∞, a, b)`; at `(2, 1)` both equations fail on the code:
`assert_lt(2, 1)` emits `Fail(-∞, 2, 1)`, not `Fail(2, 1, +∞)`, and
`assert_gt(2, 1)` emits `Fail(2, 1, +∞)`, not `Fail(-∞, 2, 1)`. -/
theorem assert_lt_gt_not_spec42 :
    (testComp.assert_lt 0 (XNum.num 2) (XNum.num 1)).logs ≠
      (testComp.assert_between 0 (XNum.num 2) (XNum.num 1) XNum.posInf).logs ∧
    (testComp.assert_gt 0 (XNum.num 2) (XNum.num 1)).logs ≠
      (testComp.assert_between 0 XNum.negInf (XNum.num 2) (XNum.num 1)).logs := by
  constructor <;> decide

/-- C2 (amended): for all arguments, `assert_lt(value, upper)` emits exactly
the event that `assert_between(−∞, value, upper)` would emit, and
`assert_gt(lower, value)` emits exactly the event that
`assert_between(lower, value, +∞)` would emit (same timestamp `now`). -/
theorem assert_lt_gt_between_equiv (c : Component) (now : ℚ) (a b : XNum) :
    (c.assert_lt now a b).logs = (c.assert_between now XNum.negInf a b).logs ∧
    (c.assert_gt now a b).logs = (c.assert_between now a b XNum.posInf).logs := by
  constructor <;> rfl

/-- C3: `assert_lt(a, b)` emits exactly the event of
`assert_between(−∞, a, b)` (`a` as the value, `b` as the upper bound) and
`assert_gt(a, b)` emits exactly the event of `assert_between(a, b, +∞)`
(`a` as lower bound, `b` as value); concretely `assert_gt(0, 1)` logs
`Pass(lower_bound = 0, value = 1, upper_bound = +∞)` and `assert_gt(2, 1)`
logs `Fail(lower_bound = 2, value = 1, upper_bound = +∞)`. -/
theorem assert_lt_gt_argument_roles (c : Component) (now : ℚ) (a b : XNum) :
    c.assert_lt now a b = c.assert_between now XNum.negInf a b ∧
    c.assert_gt now a b = c.assert_between now a b XNum.posInf ∧
    (testComp.assert_gt 0 (XNum.num 0) (XNum.num 1)).logs =
      [{ verdict := Verdict.pass
         component_name := "test"
         subcomponent_name := none
         lower_bound := XNum.num 0
         value := XNum.num 1
         upper_bound := XNum.posInf
         timestamp := 0 }] ∧
    (testComp.assert_gt 0 (XNum.num 2) (XNum.num 1)).logs =
      [{ verdict := Verdict.fail
         component_name := "test"
         subcomponent_name := none
         lower_bound := XNum.num 2
         value := XNum.num 1
         upper_bound := XNum.posInf
         timestamp := 0 }] := by
  refine ⟨rfl, rfl, by decide, by decide⟩

/-- C9: every logged event appends exactly one line to stdout, of the form
`timestamp,PASS|FAIL,component_name,lower_bound,value,upper_bound`, with
`,subcomponent_name` appended exactly when the subcomponent name is set; in
particular `Fail("test", 0, 1, 2, timestamp = 0)` prints `0,FAIL,test,0,1,2`
and the same event with `subcomponent_name = "sub"` prints
`0,FAIL,test,0,1,2,sub`. -/
theorem stdout_logger_line_format :
    (∀ (printed : List String) (e : LogEvent),
      StdoutLogger.log printed e = printed ++ [StdoutLogger.line e]) ∧
    (∀ (vd : Verdict) (nm : String) (lb v u : XNum) (ts : ℚ),
      StdoutLogger.line ⟨vd, nm, none, lb, v, u, ts⟩ =
        String.intercalate ","
          [renderRat ts, vd.render, nm, lb.render, v.render, u.render]) ∧
    (∀ (vd : Verdict) (nm s : String) (lb v u : XNum) (ts : ℚ),
      StdoutLogger.line ⟨vd, nm, some s, lb, v, u, ts⟩ =
        String.intercalate ","
          [renderRat ts, vd.render, nm, lb.render, v.render, u.render] ++
          ("," ++ s)) ∧
    StdoutLogger.line
      { verdict := Verdict.fail
        component_name := "test"
        lower_bound := XNum.num 0
        value := XNum.num 1
        upper_bound := XNum.num 2
        timestamp := 0 } = "0,FAIL,test,0,1,2" ∧
    StdoutLogger.line
      { verdict := Verdict.fail
        component_name := "test"
        subcomponent_name := some "sub"
        lower_bound := XNum.num 0
        value := XNum.num 1
        upper_bound := XNum.num 2
        timestamp := 0 } = "0,FAIL,test,0,1,2,sub" := by
  refine ⟨fun printed e => rfl, fun vd nm lb v u ts => rfl,
    fun vd nm s lb v u ts => ?_, by decide, by decide⟩
  simp [StdoutLogger.line, String.intercalate, String.intercalate.go,
    String.append_assoc]

/-- C8: for every history in which the single producer submits a finite
sequence of events, whatever the background worker's interleaved wakeups,
once `close()` returns the delegate has received exactly the submitted
sequence, in submission order — no event dropped, reordered or
duplicated. -/
theorem thread_logger_drains_in_order (ops : List TLOp) :
    ((ops.foldl tlStep {}).close).delegate_logs = submitted ops := by
  have h := tlStep_foldl_invariant ops {}
  simpa [ThreadLogger.close] using h

/-- C4: every run invokes `setup()` exactly once, before any check, and
`teardown()` exactly once, after the procedure finishes — including when
the procedure raises at some step and when it yields nothing at all. -/
theorem run_setup_teardown_once (c : Controller) (proc : List ProcStep) :
    ∃ mid,
      (c.run proc).1.trace =
        TraceEv.setupEv :: (mid ++ [TraceEv.teardownEv]) ∧
      TraceEv.setupEv ∉ mid ∧ TraceEv.teardownEv ∉ mid := by
  refine ⟨c.procTrace proc, ?_, (procTrace_no_lifecycle c proc).1,
    (procTrace_no_lifecycle c proc).2⟩
  rw [run_spec]

/-- C5: when `run()` returns a count (no exception propagated), that count
is the total number of Fail events logged during `setup()`, the procedure
steps and `teardown()`; in particular a run logging no Fail returns 0. -/
theorem run_returns_fail_count (c : Controller) (proc : List ProcStep)
    (n : Nat) (h : (c.run proc).2 = some n) :
    n = countFails (c.run proc).1.events ∧
      (countFails (c.run proc).1.events = 0 → n = 0) := by
  simp only [run_spec] at h ⊢
  by_cases hr : raisesIn proc = true
  · rw [if_pos hr] at h
    exact Option.noConfusion h
  · rw [if_neg hr] at h
    have hv := Option.some.inj h
    exact ⟨hv.symm, fun h0 => by rw [← hv]; exact h0⟩

/-- C5 witness: a controller whose setup logs one Fail event and whose
procedure is empty returns 1, the number of Fail events logged. -/
theorem run_returns_fail_count_witness :
    (failingSetupController.run []).2 = some 1 ∧
      1 = countFails (failingSetupController.run []).1.events :=
  ⟨by decide, (run_returns_fail_count failingSetupController [] 1 (by decide)).1⟩

/-- C6: each procedure step resolves its wait duration (explicit value if
given, else the configured default), invokes the wait primitive exactly
once with the resolved duration — and not at all when it is 0 — and, when
the resolved action class requests a check, invokes `check()` exactly once
on every registered Component in registration order. -/
theorem step_semantics (c : Controller) (st : RunState) (y : Yielded)
    (d : ℚ) (a : SchedAction) :
    c.execStep st y =
      { trace := st.trace ++ c.stepDelta y
        events := st.events ++ c.stepEvents y
        failTally := st.failTally + countFails (c.stepEvents y) } ∧
    (c.stepDelta y).filter TraceEv.isSleep =
      (if (c.resolveAction y).duration = 0 then []
       else [TraceEv.sleepEv (c.resolveAction y).duration]) ∧
    (c.stepDelta y).filter TraceEv.isCheck =
      (if (c.resolveAction y).cls = ActionClass.CheckAndWait then
        checkDelta c.components
       else []) ∧
    c.resolveAction (Yielded.dur d) =
      { cls := c.default_action_class, duration := d } ∧
    c.resolveAction Yielded.bare =
      { cls := c.default_action_class
        duration := c.default_action_args } ∧
    c.resolveAction (Yielded.act a) = a := by
  refine ⟨execStep_spec c st y, ?_, ?_, rfl, rfl, rfl⟩
  · cases h : (c.resolveAction y).cls <;>
      by_cases hd : (c.resolveAction y).duration = 0 <;>
        simp [Controller.stepDelta, waitDelta, h, hd, TraceEv.isSleep,
          List.filter_append, List.filter_cons,
          (checkDelta_filters c.components).1]
  · cases h : (c.resolveAction y).cls <;>
      by_cases hd : (c.resolveAction y).duration = 0 <;>
        simp [Controller.stepDelta, waitDelta, h, hd, TraceEv.isCheck,
          List.filter_append, List.filter_cons,
          (checkDelta_filters c.components).2]

/-- C7: `register_component` is an idempotent no-op when the same Component
(by identity) is already registered; when a different Component with the
same name is registered it raises `DuplicateComponentName` and leaves the
registry unchanged; otherwise it appends to the ordered registry. -/
theorem register_component_cases (c : Controller) (comp : RegComponent) :
    c.register_component comp =
      if ∃ x ∈ c.components, x.oid = comp.oid then (c, none)
      else if ∃ x ∈ c.components, x.name = comp.name then
        (c, some RegError.DuplicateComponentName)
      else ({ c with components := c.components ++ [comp] }, none) := by
  have h1 : (c.components.any fun x => x.oid == comp.oid) = true ↔
      ∃ x ∈ c.components, x.oid = comp.oid := by
    simp [List.any_eq_true]
  have h2 : (c.components.any fun x => x.name == comp.name) = true ↔
      ∃ x ∈ c.components, x.name = comp.name := by
    simp [List.any_eq_true]
  simp only [Controller.register_component]
  by_cases ha : ∃ x ∈ c.components, x.oid = comp.oid
  · rw [if_pos (h1.mpr ha), if_pos ha]
  · rw [if_neg (fun hb => ha (h1.mp hb)), if_neg ha]
    by_cases hn : ∃ x ∈ c.components, x.name = comp.name
    · rw [if_pos (h2.mpr hn), if_pos hn]
    · rw [if_neg (fun hb => hn (h2.mp hb)), if_neg hn]

/-- C10: with the Controller's default action class and args left at their
built-in defaults, a bare yield checks every registered Component exactly
once for that step, in registration order, and never touches the wait
primitive. -/
theorem default_bare_yield_checks_all (comps : List RegComponent)
    (setupL teardownL : List LogEvent) :
    (({ components := comps, setupLogs := setupL,
        teardownLogs := teardownL } : Controller).run
        [ProcStep.yields Yielded.bare]).1.trace =
      TraceEv.setupEv :: (checkDelta comps ++ [TraceEv.teardownEv]) := by
  rw [run_spec]
  simp [Controller.procTrace, Controller.stepDelta, Controller.resolveAction,
    waitDelta]
